import Mathlib

/-!
Verification development for the cacheops resilience and invalidation layer
(`cacheops/redis.py`, `cacheops/invalidation.py`).

The Python modules are shallowly embedded below.  External collaborators
(the redis client library, the Lua script loader, the ORM layer) are modelled
by explicit parameters or by small store models, following the code's use of
them; the Python functions themselves are translated statement by statement.
-/

namespace Cacheops

/-- Error classes raised by store calls, mirroring the redis-py exception
hierarchy as used by the code: `connErr` covers `redis.ConnectionError` /
`redis.TimeoutError` (connectivity), `responseErr` covers
`redis.ResponseError` (carrying its message), and `otherErr` is any exception
outside the `redis.RedisError` hierarchy. -/
inductive StoreErr
  | connErr
  | responseErr (msg : String)
  | otherErr
  deriving DecidableEq, Repr

/-- `isinstance(e, redis.RedisError)`: both connection and response errors
are subclasses of `redis.RedisError` in the client library. -/
def StoreErr.isRedisError : StoreErr → Bool
  | .connErr => true
  | .responseErr _ => true
  | .otherErr => false

/-- `isinstance(e, redis.ResponseError)`. -/
def StoreErr.isResponseError : StoreErr → Bool
  | .responseErr _ => true
  | _ => false

/-- Outcome of attempting the wrapped/underlying store call once: it either
returns a value or raises an error. -/
inductive CallResult (α : Type)
  | ok (v : α)
  | err (e : StoreErr)
  deriving Repr

/-- Configuration consumed by `handle_connection_failure`:
`FEATURE_CACHEOPS_CIRCUIT_BREAKER` and `REDIS_CIRCUIT_BREAKER_RESET_SECONDS`.
The wrapper itself only exists when `CACHEOPS_DEGRADE_ON_FAILURE` is true
(otherwise the decorator is the identity), so that flag is implicit here. -/
structure BreakerCfg where
  breakerFeature : Bool
  resetWindow : Nat
  deriving Repr

/-- Result of one wrapped call: the new circuit-breaker value
(`0` = closed, `t > 0` = open since time `t`), what the wrapper returns to its
caller (`Except.error` would mean an exception propagates), and whether the
underlying call was attempted at all. -/
structure WrapResult (α : Type) where
  newBreaker : Nat
  out : Except StoreErr (Option α)
  attempted : Bool
  deriving Repr

/-- The `try/except` tail of `handle_connection_failure`: run the call;
`except redis.RedisError` opens the breaker (sets it to the current time) and
falls through returning `None`; the bare `except Exception` logs and also
falls through returning `None`. -/
def attemptCall {α : Type} (brk now : Nat) (call : CallResult α) : WrapResult α :=
  match call with
  | .ok v => ⟨brk, .ok (some v), true⟩
  | .err e =>
      if e.isRedisError then ⟨now, .ok none, true⟩
      else ⟨brk, .ok none, true⟩

/-- `handle_connection_failure` (the `CACHEOPS_DEGRADE_ON_FAILURE` branch):
if the breaker feature is on and the breaker value is nonzero, either close it
when `now - opened > resetWindow` and proceed, or skip the call and emulate a
cache miss (`None`); otherwise attempt the call under the `try/except`. -/
def handle_connection_failure {α : Type} (cfg : BreakerCfg) (brk now : Nat)
    (call : CallResult α) : WrapResult α :=
  if cfg.breakerFeature ∧ brk ≠ 0 then
    if now - brk > cfg.resetWindow then
      attemptCall 0 now call
    else
      ⟨brk, .ok none, false⟩
  else
    attemptCall brk now call

/-- Substring occurrence on character lists: the needle is a prefix of some
suffix of the haystack. -/
def containsSub : List Char → List Char → Bool
  | [], needle => needle.isEmpty
  | c :: rest, needle => needle.isPrefixOf (c :: rest) || containsSub rest needle

/-- `"READONLY" in e.message` (Python substring test). -/
def containsREADONLY (msg : String) : Bool :=
  containsSub msg.toList "READONLY".toList

/-- Connection-level repair actions performed by
`CacheopsRedis.execute_command` on the failover path.  `clearReplicaPool` is
the pool-invalidation action the specification describes; it is listed so the
emitted trace can be compared against it. -/
inductive RepairAction
  | getConnection
  | disconnect
  | clearReplicaPool
  deriving DecidableEq, Repr

/-- `CacheopsRedis.execute_command`: run the underlying command; on a
`redis.ResponseError` whose message contains "READONLY", fetch the (stale)
connection from the pool, disconnect it, and retry the command once; any
other response error re-raises, and non-`ResponseError` exceptions are not
caught.  `first` and `second` are the outcomes of the underlying command on
the first attempt and on the retry; the result pairs what the caller sees
with the trace of repair actions performed. -/
def execute_command {α : Type} (first second : CallResult α) :
    Except StoreErr α × List RepairAction :=
  match first with
  | .ok v => (.ok v, [])
  | .err e =>
      match e with
      | .responseErr msg =>
          if containsREADONLY msg then
            match second with
            | .ok v => (.ok v, [.getConnection, .disconnect])
            | .err e2 => (.error e2, [.getConnection, .disconnect])
          else
            (.error (.responseErr msg), [])
      | e => (.error e, [])

/-! ## Fill lock (`CacheopsRedis._get_or_lock`, `_release_lock`, `getting`) -/

/-- `LOCK_TIMEOUT = 60`. -/
def LOCK_TIMEOUT : Nat := 60

/-- A snapshot of the keyspace slices the fill lock touches: string keys with
their values and TTLs, and list keys (the per-key signal channels) with their
contents and TTLs.  A key maps to `none` / `[]` when absent. -/
structure LockStore where
  strs : String → Option String
  ttl : String → Option Nat
  lists : String → List Nat
  lttl : String → Option Nat

/-- The `_lock` Lua script:
`set KEYS[1] 'LOCK' nx ex ARGV[1]`, and on success `del KEYS[2]`; returns
whether the set-if-absent succeeded.  Executed atomically by the store. -/
def lockScript (key sig : String) (ex : Nat) (st : LockStore) :
    Bool × LockStore :=
  match st.strs key with
  | some _ => (false, st)
  | none =>
      (true,
       { strs := fun k => if k = key then some "LOCK" else st.strs k
         ttl := fun k => if k = key then some ex else st.ttl k
         lists := fun k => if k = sig then [] else st.lists k
         lttl := fun k => if k = sig then none else st.lttl k })

/-- The `_unlock` Lua script: `if get KEYS[1] == 'LOCK' then del KEYS[1] end`;
then `lpush KEYS[2] 1` and `expire KEYS[2] 1`.  Executed atomically. -/
def releaseScript (key sig : String) (st : LockStore) : LockStore :=
  let st1 : LockStore :=
    if st.strs key = some "LOCK" then
      { st with
        strs := fun k => if k = key then none else st.strs k
        ttl := fun k => if k = key then none else st.ttl k }
    else st
  { st1 with
    lists := fun k => if k = sig then 1 :: st1.lists k else st1.lists k
    lttl := fun k => if k = sig then some 1 else st1.lttl k }

/-- `_release_lock key`: invoke the `_unlock` script on `key` and its signal
channel `key + ":signal"`. -/
def release_lock (key : String) (st : LockStore) : LockStore :=
  releaseScript key (key ++ ":signal") st

/-- `_get_or_lock key`, under a sequence of store snapshots: the head snapshot
is the store as observed by the current loop iteration, and the tail models
the states left by concurrent actors for the following iterations (each
`brpoplpush` wait ends in a fresh snapshot).  Returns `none` when the
snapshot supply is exhausted with the loop still waiting, otherwise
`some (data, st)` — the value returned by the Python function (`none` =
"lock acquired, caller computes") and the store it left — paired with the
list of the bounded waits performed (each entry is the timeout passed to
`brpoplpush`). -/
def get_or_lock (key : String) :
    List LockStore → Option (Option String × LockStore) × List Nat
  | [] => (none, [])
  | st :: rest =>
      match st.strs key with
      | none =>
          match lockScript key (key ++ ":signal") LOCK_TIMEOUT st with
          | (true, st1) => (some (none, st1), [])
          | (false, _) =>
              let r := get_or_lock key rest
              (r.1, LOCK_TIMEOUT :: r.2)
      | some v =>
          if v = "LOCK" then
            let r := get_or_lock key rest
            (r.1, LOCK_TIMEOUT :: r.2)
          else
            (some (some v, st), [])

/-- Outcome of the caller's compute body inside the `getting` context
manager: it either completes or raises. -/
inductive BodyOutcome
  | ok
  | raised
  deriving DecidableEq, Repr

/-- The `lock=True` branch of `CacheopsRedis.getting`: run `_get_or_lock`,
record `locked = data is None`, hand `data` to the body, and in the `finally`
block call `_release_lock` exactly when `locked`.  Returns the final store,
whether the lock-release path ran, and the body outcome (which propagates to
the caller after the `finally` block, whatever it was). -/
def getting_locked (key : String) (snaps : List LockStore)
    (body : BodyOutcome) : Option (LockStore × Bool × BodyOutcome) :=
  match (get_or_lock key snaps).1 with
  | none => none
  | some (data, st) =>
      match data with
      | none => some (release_lock key st, true, body)
      | some _ => some (st, false, body)

/-! ## Invalidation (`cacheops/invalidation.py`) -/

/-- The keyspace slices the invalidation module touches, as association
lists: conjunction sets (`conj:<table>:...` keys, each holding its member
cache keys) and plain cache entries.  An absent key is one with no pair in
the list; redis keeps no empty sets, so an empty member list never appears
for a live key. -/
structure InvStore where
  sets : List (String × List String)
  entries : List (String × String)
  deriving DecidableEq, Repr

/-- `smembers`-style lookup of a conjunction set; an absent key reads as the
empty set. -/
def InvStore.getSet (st : InvStore) (k : String) : List String :=
  ((st.sets.find? (fun p => p.1 == k)).map Prod.snd).getD []

/-- Replace the member list of set `k` (the effect of `srem`); removing the
last member removes the key, as redis does. -/
def InvStore.setSet (st : InvStore) (k : String) (v : List String) : InvStore :=
  { st with
    sets := st.sets.filter (fun p => p.1 != k) ++
      (if v.isEmpty then [] else [(k, v)]) }

/-- `delete(*ks)` on cache-entry keys. -/
def InvStore.delEntries (st : InvStore) (ks : List String) : InvStore :=
  { st with entries := st.entries.filter (fun p => !(ks.contains p.1)) }

/-- `delete(*ks)` on conjunction-set keys. -/
def InvStore.delSets (st : InvStore) (ks : List String) : InvStore :=
  { st with sets := st.sets.filter (fun p => !(ks.contains p.1)) }

/-- `sscan(key, cursor, count)` as used by the cleanup loop.  The loop
removes every member a page returns before asking for the next page, and
redis guarantees that members present for the whole scan are returned; under
that access pattern the remaining members are exactly the unreturned ones, so
each round returns a page off the front of the remaining set.  The returned
cursor is `0` exactly when this page exhausts the set. -/
def sscan (members : List String) (cursor count : Nat) : Nat × List String :=
  (if members.length ≤ count then 0 else cursor + count, members.take count)

/-- The `while True` body of `delete_invalid_caches` for one conjunction key:
`sscan` a page of at most 1000 members from `conj_key` at `cursor`; if the
page is nonempty, `srem` it from the conjunction and `delete` the cache
entries it names; stop when the returned cursor is `0`, else continue from
that cursor. -/
def cleanConjLoop (key : String) (st : InvStore) (cursor : Nat) : InvStore :=
  let res := sscan (st.getSet key) cursor 1000
  let st1 :=
    if res.2.isEmpty then st
    else
      InvStore.delEntries
        (st.setSet key ((st.getSet key).filter (fun m => !(res.2.contains m))))
        res.2
  if h : res.1 = 0 then st1 else cleanConjLoop key st1 res.1
termination_by (st.getSet key).length
decreasing_by
  unfold_let st1 res at *
  simp only [sscan] at h ⊢
  by_cases hle : (st.getSet key).length ≤ 1000
  · simp [hle] at h
  · have hlen : 1000 < (st.getSet key).length := Nat.lt_of_not_le hle
    have hne : ((st.getSet key).take 1000).isEmpty = false := by
      rcases hL : st.getSet key with _ | ⟨b, t⟩
      · rw [hL] at hlen; simp at hlen
      · simp [List.take_succ_cons]
    have hgs : ∀ (s : InvStore) (v : List String), (s.setSet key v).getSet key = v := by
      intro s v
      have hnone :
          List.find? (fun p => p.1 == key) (s.sets.filter (fun p => p.1 != key)) = none := by
        apply List.find?_eq_none.mpr
        intro x hx
        have := (List.mem_filter.mp hx).2
        simp_all
      cases hv : v.isEmpty
      · simp [InvStore.setSet, InvStore.getSet, hv, List.find?_append, hnone, List.find?]
      · simp [InvStore.setSet, InvStore.getSet, hv, List.find?_append, hnone,
          List.isEmpty_iff.mp hv]
    have hflt :
        ((st.getSet key).filter
          (fun m => !(((st.getSet key).take 1000).contains m))).length <
          (st.getSet key).length := by
      have hsplit :
          (st.getSet key).filter (fun m => !(((st.getSet key).take 1000).contains m)) =
            ((st.getSet key).take 1000).filter
              (fun m => !(((st.getSet key).take 1000).contains m)) ++
            ((st.getSet key).drop 1000).filter
              (fun m => !(((st.getSet key).take 1000).contains m)) := by
        rw [← List.filter_append ((st.getSet key).take 1000) ((st.getSet key).drop 1000),
          List.take_append_drop]
      have htake :
          ((st.getSet key).take 1000).filter
            (fun m => !(((st.getSet key).take 1000).contains m)) = [] := by
        apply List.filter_eq_nil_iff.mpr
        intro a ha
        simp [ha]
      have hdrop := List.length_filter_le
        (fun m => !(((st.getSet key).take 1000).contains m)) ((st.getSet key).drop 1000)
      rw [hsplit, htake, List.nil_append]
      have hdl : ((st.getSet key).drop 1000).length = (st.getSet key).length - 1000 :=
        List.length_drop 1000 (st.getSet key)
      omega
    simp only [hne, Bool.false_eq_true, if_false, InvStore.delEntries]
    calc ((st.setSet key ((st.getSet key).filter
            (fun m => !(((st.getSet key).take 1000).contains m)))).getSet key).length
        = ((st.getSet key).filter
            (fun m => !(((st.getSet key).take 1000).contains m))).length := by rw [hgs]
      _ < (st.getSet key).length := hflt

/-- `delete_invalid_caches(conj_keys)`: for each stale conjunction key run
the paginated scan/remove loop from cursor `0`, then `delete(*conj_keys)`. -/
def delete_invalid_caches (conj_keys : List String) (st : InvStore) : InvStore :=
  InvStore.delSets (conj_keys.foldl (fun s k => cleanConjLoop k s 0) st) conj_keys

/-- The thread-local suppression depth of `no_invalidation`
(`InvalidationState.depth`, initially `0`). -/
def initialDepth : Int := 0

/-- `_no_invalidation.__enter__`: `self.state.depth += 1`. -/
def enterScope (depth : Int) : Int := depth + 1

/-- `_no_invalidation.__exit__`: `self.state.depth -= 1`. -/
def exitScope (depth : Int) : Int := depth - 1

/-- `no_invalidation.active`: returns the depth itself, which Python then
uses as a truth value — truthy exactly when nonzero. -/
def no_invalidation_active (depth : Int) : Bool := depth != 0

/-- The common guard opening every invalidation entry point:
`if no_invalidation.active or not settings.CACHEOPS_ENABLED: return`. -/
def invalidationSkipped (depth : Int) (enabled : Bool) : Bool :=
  no_invalidation_active depth || !enabled

/-- `invalidate_dict` in the `FEATURE_FAST_INVALIDATION` branch: after the
guard, invoke the `fast_invalidate` server-side procedure (an external atomic
script, passed here as `fastScript`, returning the store it leaves and the
list of renamed conjunction keys) and hand the renamed keys to the cleanup
function, which defaults to `delete_invalid_caches`. -/
def invalidate_dict_fast (fastScript : InvStore → InvStore × List String)
    (depth : Int) (enabled : Bool) (st : InvStore) : InvStore :=
  if invalidationSkipped depth enabled then st
  else
    let r := fastScript st
    delete_invalid_caches r.2 r.1

/-- `invalidate_dict` in the precise branch: after the guard, invoke the
`invalidate` server-side procedure (external atomic script `script`). -/
def invalidate_dict_precise (script : InvStore → InvStore)
    (depth : Int) (enabled : Bool) (st : InvStore) : InvStore :=
  if invalidationSkipped depth enabled then st
  else script st

/-- `invalidate_model(model)`: after the guard, `keys('conj:<table>:*')`;
if any exist, union their members and delete the member cache entries
together with the conjunction keys. -/
def invalidate_model (depth : Int) (enabled : Bool) (table : String)
    (st : InvStore) : InvStore :=
  if invalidationSkipped depth enabled then st
  else
    let conjs_keys := (st.sets.map Prod.fst).filter
      (fun k => k.startsWith ("conj:" ++ table ++ ":"))
    if conjs_keys.isEmpty then st
    else
      let cache_keys :=
        (st.sets.filter (fun p => conjs_keys.contains p.1)).foldr
          (fun p acc => p.2 ++ acc) []
      InvStore.delSets (st.delEntries cache_keys) conjs_keys

/-- `invalidate_all()`: after the guard, `flushdb()`. -/
def invalidate_all (depth : Int) (enabled : Bool) (st : InvStore) : InvStore :=
  if invalidationSkipped depth enabled then st
  else { sets := [], entries := [] }

/-! ## Replica router (`redis_replicas`, `ReplicaProxyRedis.get`) -/

/-- `settings.CACHEOPS_REDIS_REPLICA`: either a comma-separated string of
URLs or a list of URLs. -/
inductive ReplicaConf
  | str (s : String)
  | list (l : List String)

/-- The module-level `redis_replicas`: map `redis.StrictRedis.from_url` over
the configured URLs (splitting the string form on commas).  `from_url`
stands for the client construction; each client is identified here by the
network address its URL resolves to. -/
def redis_replicas (from_url : String → String) : ReplicaConf → List String
  | .str s => (s.splitOn ",").map from_url
  | .list l => l.map from_url

/-- The replica chosen by `random.choice(redis_replicas)` in
`ReplicaProxyRedis.get` when the random draw lands on index `i`. -/
def chooseReplica (replicas : List String) (i : Nat) : Option String :=
  replicas.get? i

/-- Example snapshot: some other caller holds the fill lock for every key. -/
def snapLocked : LockStore :=
  { strs := fun _ => some "LOCK"
    ttl := fun _ => some 60
    lists := fun _ => []
    lttl := fun _ => none }

/-- Example snapshot: key `price:42` holds a cached value. -/
def snapValue : LockStore :=
  { strs := fun k => if k = "price:42" then some "cached" else none
    ttl := fun k => if k = "price:42" then some 30 else none
    lists := fun _ => []
    lttl := fun _ => none }

/-- Example snapshot: the keyspace is empty. -/
def snapEmpty : LockStore :=
  { strs := fun _ => none
    ttl := fun _ => none
    lists := fun _ => []
    lttl := fun _ => none }

/-! ## Theorems -/

/-- Claim C1, as stated, fails on the code: an error outside the redis error
hierarchy (a protocol/logic defect) raised by a wrapped store call is caught
by the bare `except Exception` clause, logged, and swallowed — the wrapper
returns `None` instead of letting the error propagate, with degrade-on-failure
enabled, the breaker feature on, and the breaker closed. -/
theorem C1_counterexample :
    handle_connection_failure (α := Nat) ⟨true, 30⟩ 0 100 (CallResult.err .otherErr) =
      ⟨0, Except.ok none, true⟩ :=
  rfl

/-- Claim C1 amended: under degrade-on-failure, no error of any class ever
propagates out of `handle_connection_failure` — every wrapped call returns
normally; in particular a non-classified (non-redis) error is swallowed,
surfacing as `None` (a miss), and from a closed breaker it leaves the breaker
closed. -/
theorem C1_no_error_propagates {α : Type} (cfg : BreakerCfg) (brk now : Nat)
    (call : CallResult α) :
    (∃ o, (handle_connection_failure cfg brk now call).out = Except.ok o) ∧
    ((handle_connection_failure (α := α) cfg brk now (CallResult.err .otherErr)).out =
      Except.ok none) ∧
    ((handle_connection_failure (α := α) cfg 0 now (CallResult.err .otherErr)).newBreaker
      = 0) := by
  refine ⟨?_, ?_, ?_⟩
  · unfold handle_connection_failure attemptCall
    split
    · split
      · cases call with
        | ok v => exact ⟨some v, rfl⟩
        | err e => cases e <;> exact ⟨none, rfl⟩
      · exact ⟨none, rfl⟩
    · cases call with
      | ok v => exact ⟨some v, rfl⟩
      | err e => cases e <;> exact ⟨none, rfl⟩
  · unfold handle_connection_failure attemptCall
    split
    · split <;> rfl
    · rfl
  · unfold handle_connection_failure attemptCall
    split
    · rename_i hcond
      exact absurd rfl hcond.2
    · rfl

/-- Claim C2, as stated, fails on the code: a `redis.ResponseError` — the
spec's protocol/logic class, not a connectivity/timeout failure — is caught
by `except redis.RedisError` and flips the breaker from closed (`0`) to open
(`now = 100`). -/
theorem C2_counterexample :
    handle_connection_failure (α := Nat) ⟨true, 30⟩ 0 100
        (CallResult.err (.responseErr "WRONGTYPE unexpected response shape")) =
      ⟨100, Except.ok none, true⟩ ∧
    StoreErr.isResponseError (.responseErr "WRONGTYPE unexpected response shape") =
      true :=
  ⟨rfl, rfl⟩

/-- Claim C2 amended: the breaker transitions closed→open only when the
wrapped call raises an error in the redis error hierarchy (which includes
response/protocol errors, not only connectivity/timeout ones), recording the
failure time; with the feature on it transitions open→closed only once
`now - opened > resetWindow`; while open within the window every call is
skipped — breaker kept, `None` returned, call not attempted — and the first
call after the window is attempted for real. -/
theorem C2_breaker_transitions {α : Type} (cfg : BreakerCfg) (brk now : Nat)
    (call : CallResult α) :
    (brk = 0 → (handle_connection_failure cfg brk now call).newBreaker ≠ 0 →
      ∃ e, call = CallResult.err e ∧ e.isRedisError = true ∧
        (handle_connection_failure cfg brk now call).newBreaker = now) ∧
    (cfg.breakerFeature = true → brk ≠ 0 →
      (handle_connection_failure cfg brk now call).newBreaker = 0 →
        now - brk > cfg.resetWindow) ∧
    (cfg.breakerFeature = true → brk ≠ 0 → ¬(now - brk > cfg.resetWindow) →
      handle_connection_failure cfg brk now call = ⟨brk, Except.ok none, false⟩) ∧
    (cfg.breakerFeature = true → brk ≠ 0 → now - brk > cfg.resetWindow →
      (handle_connection_failure cfg brk now call).attempted = true) := by
  refine ⟨?_, ?_, ?_, ?_⟩
  · intro h0 hne
    subst h0
    unfold handle_connection_failure at hne ⊢
    rw [if_neg (by simp)] at hne ⊢
    cases call with
    | ok v => simp [attemptCall] at hne
    | err e =>
        cases e with
        | connErr =>
            exact ⟨.connErr, rfl, rfl, by simp [attemptCall, StoreErr.isRedisError]⟩
        | responseErr m =>
            exact ⟨.responseErr m, rfl, rfl, by simp [attemptCall, StoreErr.isRedisError]⟩
        | otherErr => simp [attemptCall, StoreErr.isRedisError] at hne
  · intro hf hbrk h0
    unfold handle_connection_failure at h0
    rw [if_pos ⟨hf, hbrk⟩] at h0
    by_cases hw : now - brk > cfg.resetWindow
    · exact hw
    · rw [if_neg hw] at h0
      exact absurd h0 hbrk
  · intro hf hbrk hw
    unfold handle_connection_failure
    rw [if_pos ⟨hf, hbrk⟩, if_neg hw]
  · intro hf hbrk hw
    unfold handle_connection_failure
    rw [if_pos ⟨hf, hbrk⟩, if_pos hw]
    cases call with
    | ok v => rfl
    | err e => cases e <;> simp [attemptCall, StoreErr.isRedisError]

/-- Witness for C2: with the breaker open since `40`, a window of `30`, and
the feature on, a call at time `60` (window not yet elapsed) is skipped and
reads as a miss, while a call at time `100` (window elapsed) is attempted. -/
theorem C2_witness :
    handle_connection_failure (α := Nat) ⟨true, 30⟩ 40 60 (CallResult.ok 7) =
      ⟨40, Except.ok none, false⟩ ∧
    (handle_connection_failure (α := Nat) ⟨true, 30⟩ 40 100 (CallResult.ok 7)).attempted
      = true :=
  ⟨(C2_breaker_transitions ⟨true, 30⟩ 40 60 (CallResult.ok 7)).2.2.1 rfl (by decide)
      (by decide),
   (C2_breaker_transitions ⟨true, 30⟩ 40 100 (CallResult.ok 7)).2.2.2 rfl (by decide)
      (by decide)⟩

/-- Claim C6, as stated, fails on the code: on a READONLY role error the
client fetches the stale connection and disconnects it, then retries once —
but it never clears any cached replica pool (the module-level replica list is
untouched); the repair trace at a concrete input holds no pool-clearing
action. -/
theorem C6_counterexample :
    execute_command (α := Nat)
        (CallResult.err (.responseErr "READONLY write rejected"))
        (CallResult.ok 7) =
      (Except.ok 7, [RepairAction.getConnection, RepairAction.disconnect]) ∧
    RepairAction.clearReplicaPool ∉
      (execute_command (α := Nat)
        (CallResult.err (.responseErr "READONLY write rejected"))
        (CallResult.ok 7)).2 :=
  ⟨rfl, by decide⟩

/-- Claim C6 amended: on a response error whose message contains READONLY the
client disconnects the stale connection (without clearing any cached replica
pool) and retries exactly once, a failing retry propagating its error; a
response error without READONLY propagates immediately with no retry and no
repair action; and no execution ever clears a replica pool. -/
theorem C6_failover_repair {α : Type} (msg : String) (first second : CallResult α)
    (v : α) (e2 : StoreErr) :
    (containsREADONLY msg = true →
      execute_command (CallResult.err (.responseErr msg)) (CallResult.ok v) =
        (Except.ok v, [RepairAction.getConnection, RepairAction.disconnect]) ∧
      execute_command (α := α) (CallResult.err (.responseErr msg)) (CallResult.err e2) =
        (Except.error e2, [RepairAction.getConnection, RepairAction.disconnect])) ∧
    (containsREADONLY msg = false →
      execute_command (CallResult.err (.responseErr msg)) second =
        (Except.error (StoreErr.responseErr msg), [])) ∧
    (execute_command (CallResult.ok v) second = (Except.ok v, [])) ∧
    (RepairAction.clearReplicaPool ∉ (execute_command first second).2) := by
  refine ⟨fun h => ⟨?_, ?_⟩, fun h => ?_, rfl, ?_⟩
  · simp [execute_command, h]
  · simp [execute_command, h]
  · simp [execute_command, h]
  · cases first with
    | ok v1 => simp [execute_command]
    | err e =>
        cases e with
        | connErr => simp [execute_command]
        | otherErr => simp [execute_command]
        | responseErr m =>
            by_cases hm : containsREADONLY m = true
            · cases second <;> simp [execute_command, hm]
            · simp [execute_command, hm]

/-- Witness for C6: a READONLY role error followed by a failing retry
propagates the retry's error after the disconnect; a non-READONLY response
error propagates immediately with no repair action. -/
theorem C6_witness :
    execute_command (α := Nat)
        (CallResult.err (.responseErr "READONLY target is a replica"))
        (CallResult.err .connErr) =
      (Except.error StoreErr.connErr,
        [RepairAction.getConnection, RepairAction.disconnect]) ∧
    execute_command (α := Nat)
        (CallResult.err (.responseErr "ERR unknown command"))
        (CallResult.ok 1) =
      (Except.error (StoreErr.responseErr "ERR unknown command"), []) :=
  ⟨((C6_failover_repair "READONLY target is a replica"
      (CallResult.err (.responseErr "READONLY target is a replica"))
      (CallResult.err .connErr) 0 .connErr).1 rfl).2,
   (C6_failover_repair "ERR unknown command"
      (CallResult.err (.responseErr "ERR unknown command"))
      (CallResult.ok 1) 1 .connErr).2.1 rfl⟩

/-- Claim C8, as stated, fails on the code: `redis_replicas` is a plain map
of the configured entries with no exclusion or dedup-by-address, so when the
first configured replica label resolves to the primary's own address
(`10.0.0.1:6379` here), a read whose random draw lands on index 0 selects
exactly that address. -/
theorem C8_counterexample :
    chooseReplica
      (redis_replicas
        (fun u => if u = "redis://primary-label:6379" then "10.0.0.1:6379"
          else "10.0.0.2:6379")
        (ReplicaConf.list ["redis://primary-label:6379", "redis://replica:6379"]))
      0 = some "10.0.0.1:6379" :=
  rfl

/-- Claim C8 amended: replica reads draw from the configured replica list
mapped through `from_url` verbatim — the pool keeps one entry per configured
entry, every resolved address in it is selectable, and in particular an entry
resolving to the primary's own address is selectable rather than excluded. -/
theorem C8_no_dedup (from_url : String → String) (l : List String) (p : String)
    (hp : p ∈ l.map from_url) :
    (redis_replicas from_url (ReplicaConf.list l)).length = l.length ∧
    p ∈ redis_replicas from_url (ReplicaConf.list l) ∧
    ∃ i, chooseReplica (redis_replicas from_url (ReplicaConf.list l)) i = some p := by
  refine ⟨List.length_map l from_url, hp, ?_⟩
  rcases List.mem_iff_get?.mp hp with ⟨i, hi⟩
  exact ⟨i, hi⟩

/-- Witness for C8: with identity resolution, the address `10.0.0.1:6379`
configured as a replica (and equal to the primary's address) is selectable. -/
theorem C8_witness :
    ∃ i, chooseReplica
      (redis_replicas id (ReplicaConf.list ["10.0.0.1:6379", "10.0.0.2:6379"])) i =
        some "10.0.0.1:6379" :=
  (C8_no_dedup id ["10.0.0.1:6379", "10.0.0.2:6379"] "10.0.0.1:6379"
    (by simp)).2.2

/-- Claim C3: `_get_or_lock` returns an existing non-sentinel value
immediately with no wait; on an empty key it atomically sets the `LOCK`
sentinel with a `LOCK_TIMEOUT` (60) expiry, clears the signal channel, and
returns `None` so the caller computes; and when another caller holds the
sentinel it performs one `brpoplpush` wait bounded by the same
`LOCK_TIMEOUT` and then re-checks on the next snapshot — the wait sits in a
retry loop, not a single wait. -/
theorem C3_get_or_lock (key : String) (st : LockStore) (rest : List LockStore)
    (v : String) :
    (st.strs key = some v → v ≠ "LOCK" →
      get_or_lock key (st :: rest) = (some (some v, st), [])) ∧
    (st.strs key = none →
      get_or_lock key (st :: rest) =
        (some (none, (lockScript key (key ++ ":signal") LOCK_TIMEOUT st).2), []) ∧
      (lockScript key (key ++ ":signal") LOCK_TIMEOUT st).2.strs key = some "LOCK" ∧
      (lockScript key (key ++ ":signal") LOCK_TIMEOUT st).2.ttl key =
        some LOCK_TIMEOUT ∧
      (lockScript key (key ++ ":signal") LOCK_TIMEOUT st).2.lists
        (key ++ ":signal") = []) ∧
    (st.strs key = some "LOCK" →
      get_or_lock key (st :: rest) =
        ((get_or_lock key rest).1, LOCK_TIMEOUT :: (get_or_lock key rest).2)) := by
  refine ⟨fun h hv => ?_, fun h => ⟨?_, ?_, ?_, ?_⟩, fun h => ?_⟩
  · simp [get_or_lock, h, hv]
  · simp [get_or_lock, lockScript, h]
  · simp [lockScript, h]
  · simp [lockScript, h]
  · simp [lockScript, h]
  · simp [get_or_lock, h]

/-- Witness for C3: with the lock held in the first snapshot and a cached
value in the second, the reader waits once (bounded by 60) and then returns
the value; on an empty snapshot it acquires the lock and returns `None`. -/
theorem C3_witness :
    get_or_lock "price:42" [snapLocked, snapValue] =
      (some (some "cached", snapValue), [LOCK_TIMEOUT]) ∧
    get_or_lock "price:42" [snapEmpty] =
      (some (none, (lockScript "price:42" ("price:42" ++ ":signal") LOCK_TIMEOUT
        snapEmpty).2), []) := by
  constructor
  · rw [(C3_get_or_lock "price:42" snapLocked [snapValue] "cached").2.2 rfl,
      ((C3_get_or_lock "price:42" snapValue [] "cached").1 rfl (by decide))]
  · exact ((C3_get_or_lock "price:42" snapEmpty [] "x").2.1 rfl).1

/-- Claim C4: `_release_lock` clears the key only when it still holds the
`LOCK` sentinel — a value written meanwhile survives untouched — and in every
case pushes one wake signal onto the key's signal channel and sets that
channel's expiry to 1. -/
theorem C4_release_lock (key : String) (st : LockStore) (v : String) :
    (st.strs key = some "LOCK" → (release_lock key st).strs key = none) ∧
    (st.strs key = some v → v ≠ "LOCK" → (release_lock key st).strs key = some v) ∧
    (st.strs key = none → (release_lock key st).strs key = none) ∧
    ((release_lock key st).lists (key ++ ":signal") =
      1 :: st.lists (key ++ ":signal")) ∧
    ((release_lock key st).lttl (key ++ ":signal") = some 1) := by
  refine ⟨fun h => ?_, fun h hv => ?_, fun h => ?_, ?_, ?_⟩
  · simp [release_lock, releaseScript, h]
  · simp [release_lock, releaseScript, h, hv]
  · simp [release_lock, releaseScript, h]
  · unfold release_lock releaseScript
    split <;> simp
  · unfold release_lock releaseScript
    split <;> simp

/-- Witness for C4: releasing over a store whose key holds the sentinel
clears it; releasing over a store whose key holds a racing caller's value
leaves the value; both push a wake signal with expiry 1. -/
theorem C4_witness :
    (release_lock "price:42" snapLocked).strs "price:42" = none ∧
    (release_lock "price:42" snapValue).strs "price:42" = some "cached" ∧
    (release_lock "price:42" snapValue).lists ("price:42" ++ ":signal") = [1] ∧
    (release_lock "price:42" snapValue).lttl ("price:42" ++ ":signal") = some 1 :=
  ⟨(C4_release_lock "price:42" snapLocked "cached").1 rfl,
   (C4_release_lock "price:42" snapValue "cached").2.1 rfl (by decide),
   (C4_release_lock "price:42" snapValue "cached").2.2.2.1,
   (C4_release_lock "price:42" snapValue "cached").2.2.2.2⟩

/-- Claim C9: in the `lock=True` branch of `getting`, the `finally` block
releases the lock exactly when this caller acquired it (the locked read
returned `None`), and it does so for every body outcome — including a raised
body, whose outcome still propagates; when the read returned a value (so any
live lock belongs to another caller) no release happens and the store is left
as the read left it. -/
theorem C9_release_iff_acquired (key : String) (snaps : List LockStore)
    (b : BodyOutcome) (data : Option String) (st1 : LockStore)
    (h : (get_or_lock key snaps).1 = some (data, st1)) :
    (data = none → getting_locked key snaps b =
      some (release_lock key st1, true, b)) ∧
    (∀ v, data = some v → getting_locked key snaps b = some (st1, false, b)) := by
  constructor
  · intro hd
    subst hd
    simp [getting_locked, h]
  · intro v hd
    subst hd
    simp [getting_locked, h]

/-- Witness for C9: a caller that acquired the lock on an empty store
releases it even though its body raises (and the exception still
propagates); a caller that read an existing value does not release. -/
theorem C9_witness :
    getting_locked "price:42" [snapEmpty] BodyOutcome.raised =
      some (release_lock "price:42"
        (lockScript "price:42" ("price:42" ++ ":signal") LOCK_TIMEOUT snapEmpty).2,
        true, BodyOutcome.raised) ∧
    getting_locked "price:42" [snapValue] BodyOutcome.raised =
      some (snapValue, false, BodyOutcome.raised) :=
  ⟨(C9_release_iff_acquired "price:42" [snapEmpty] BodyOutcome.raised none
      (lockScript "price:42" ("price:42" ++ ":signal") LOCK_TIMEOUT snapEmpty).2
      rfl).1 rfl,
   (C9_release_iff_acquired "price:42" [snapValue] BodyOutcome.raised
      (some "cached") snapValue rfl).2 "cached" rfl⟩

/-- Claim C5: each invalidation entry point (`invalidate_dict` in both its
fast and precise variants, `invalidate_model`, `invalidate_all`) first checks
the suppression counter and the global enabled flag, and when either guard
says skip it returns with the store untouched — a silent no-op. -/
theorem C5_invalidation_guards (depth : Int) (enabled : Bool) (table : String)
    (st : InvStore) (fastScript : InvStore → InvStore × List String)
    (script : InvStore → InvStore)
    (h : no_invalidation_active depth = true ∨ enabled = false) :
    invalidate_dict_fast fastScript depth enabled st = st ∧
    invalidate_dict_precise script depth enabled st = st ∧
    invalidate_model depth enabled table st = st ∧
    invalidate_all depth enabled st = st := by
  have hs : invalidationSkipped depth enabled = true := by
    rcases h with h | h <;> simp [invalidationSkipped, h]
  exact ⟨by simp [invalidate_dict_fast, hs], by simp [invalidate_dict_precise, hs],
    by simp [invalidate_model, hs], by simp [invalidate_all, hs]⟩

/-- Witness for C5: with suppression depth 1 (enabled) and with depth 0 but
the global flag off, a populated store survives every entry point
unchanged. -/
theorem C5_witness :
    invalidate_all 1 true ⟨[("conj:orders:a", ["q1"])], [("q1", "blob")]⟩ =
      ⟨[("conj:orders:a", ["q1"])], [("q1", "blob")]⟩ ∧
    invalidate_model 0 false "orders"
      ⟨[("conj:orders:a", ["q1"])], [("q1", "blob")]⟩ =
      ⟨[("conj:orders:a", ["q1"])], [("q1", "blob")]⟩ :=
  ⟨(C5_invalidation_guards 1 true "orders"
      ⟨[("conj:orders:a", ["q1"])], [("q1", "blob")]⟩ (fun s => (s, [])) id
      (Or.inl rfl)).2.2.2,
   (C5_invalidation_guards 0 false "orders"
      ⟨[("conj:orders:a", ["q1"])], [("q1", "blob")]⟩ (fun s => (s, [])) id
      (Or.inr rfl)).2.2.1⟩

/-- Claim C10: the suppression guard is "depth is nonzero", not "depth is
positive": an unmatched `__exit__` from the initial depth 0 leaves the
thread-local depth at -1, which still reads as active, so every invalidation
entry point remains a silent no-op after an unbalanced exit. -/
theorem C10_unbalanced_exit_suppresses :
    exitScope initialDepth = -1 ∧
    no_invalidation_active (exitScope initialDepth) = true ∧
    (∀ d : Int, no_invalidation_active d = decide (d ≠ 0)) ∧
    (∀ (st : InvStore) (table : String),
      invalidate_model (exitScope initialDepth) true table st = st) ∧
    (∀ st : InvStore, invalidate_all (exitScope initialDepth) true st = st) ∧
    (∀ (fs : InvStore → InvStore × List String) (st : InvStore),
      invalidate_dict_fast fs (exitScope initialDepth) true st = st) ∧
    (∀ (sc : InvStore → InvStore) (st : InvStore),
      invalidate_dict_precise sc (exitScope initialDepth) true st = st) := by
  refine ⟨rfl, rfl, fun d => ?_, fun st table => ?_, fun st => ?_, fun fs st => ?_,
    fun sc st => ?_⟩
  · by_cases hd : d = 0 <;> simp [no_invalidation_active, hd]
  · simp [invalidate_model, invalidationSkipped, no_invalidation_active,
      exitScope, initialDepth]
  · simp [invalidate_all, invalidationSkipped, no_invalidation_active,
      exitScope, initialDepth]
  · simp [invalidate_dict_fast, invalidationSkipped, no_invalidation_active,
      exitScope, initialDepth]
  · simp [invalidate_dict_precise, invalidationSkipped, no_invalidation_active,
      exitScope, initialDepth]

/-- One pass of the cleanup loop over an already-cleaned (absent) conjunction
is the identity. -/
theorem cleanConjLoop_nil (key : String) (st : InvStore) (cursor : Nat)
    (h : st.getSet key = []) : cleanConjLoop key st cursor = st := by
  unfold cleanConjLoop
  simp [sscan, h]

/-- After `delete(*conj_keys)`, each deleted conjunction key reads as the
empty set. -/
theorem getSet_delSets_of_mem (st : InvStore) (ks : List String) (k : String)
    (h : k ∈ ks) : (InvStore.delSets st ks).getSet k = [] := by
  unfold InvStore.delSets InvStore.getSet
  have hnone : List.find? (fun p => p.1 == k)
      (st.sets.filter (fun p => !(ks.contains p.1))) = none := by
    apply List.find?_eq_none.mpr
    intro x hx
    have h2 := (List.mem_filter.mp hx).2
    simp at h2 ⊢
    intro hxk
    exact h2 (hxk ▸ h)
  rw [hnone]
  rfl

/-- Folding the cleanup loop over keys whose sets are already empty changes
nothing. -/
theorem foldl_cleanConjLoop_nil (keys : List String) (st : InvStore)
    (h : ∀ k ∈ keys, st.getSet k = []) :
    keys.foldl (fun s k => cleanConjLoop k s 0) st = st := by
  induction keys with
  | nil => rfl
  | cons a t ih =>
      simp only [List.foldl_cons]
      rw [cleanConjLoop_nil a st 0 (h a (by simp))]
      exact ih (fun k hk => h k (by simp [hk]))

/-- Deleting the same conjunction keys twice equals deleting them once. -/
theorem delSets_delSets (st : InvStore) (ks : List String) :
    InvStore.delSets (InvStore.delSets st ks) ks = InvStore.delSets st ks := by
  have hf : (st.sets.filter (fun p => !(ks.contains p.1))).filter
      (fun p => !(ks.contains p.1)) = st.sets.filter (fun p => !(ks.contains p.1)) :=
    List.filter_eq_self.mpr (fun a ha => (List.mem_filter.mp ha).2)
  simp [InvStore.delSets, hf]

/-- Claim C7: the fast-mode cleanup pass is cursor-based with pages of at
most 1000 members per `sscan` round trip, and idempotent — running
`delete_invalid_caches` again over conjunctions it has already cleaned (it
ends by deleting every listed conjunction key) leaves the store exactly as
the first run left it. -/
theorem C7_cleanup_paged_idempotent (conj_keys : List String) (st : InvStore)
    (members : List String) (cursor : Nat) :
    (sscan members cursor 1000).2.length ≤ 1000 ∧
    delete_invalid_caches conj_keys (delete_invalid_caches conj_keys st) =
      delete_invalid_caches conj_keys st := by
  constructor
  · simp [sscan]
  · unfold delete_invalid_caches
    rw [foldl_cleanConjLoop_nil conj_keys
      (InvStore.delSets (conj_keys.foldl (fun s k => cleanConjLoop k s 0) st)
        conj_keys)
      (fun k hk => getSet_delSets_of_mem _ conj_keys k hk)]
    exact delSets_delSets _ conj_keys

end Cacheops
